import Mathlib

/-
Verification of the parsing and puzzle logic of the advent-of-code-2020
repository.  Each day's lexer, record assembler and validator is embedded
shallowly: text becomes `List Char`, the logos-generated lexers become step
functions `List Char → Option (Option Token × List Char)` (where `none` in the
first component of a step result is a skipped whitespace run), machine-integer
subtleties (u64 underflow, usize division by zero, i32 overflow) are made
explicit with `Option`-valued operations whose `none` models a Rust panic.
-/

set_option autoImplicit false

namespace Day02

/-- Token type of the day-02 lexer (`PasswordRuleToken` in `day-02.rs`).
`Number` carries the parsed u64 value, `TargetCharacter` the letter in front
of the colon, `Password` the matched lowercase run.  `Error` is the logos
error variant (unrecognized input; whitespace matched by the skip rule never
becomes a token). -/
inductive PRToken where
  | Number (n : Nat)
  | Dash
  | TargetCharacter (c : Char)
  | Password (s : List Char)
  | Error
  deriving DecidableEq

/-- The record assembled by the day-02 rule reader (`PasswordRule` in
`day-02.rs`); spots are zero-based usize indices. -/
structure PasswordRule where
  first_spot : Nat
  second_spot : Nat
  target_char : Char
  password : List Char
  deriving DecidableEq

/-- `PasswordRule::is_valid` from `day-02.rs`: the ordered, guarded Rust
match over `password.chars().nth(first_spot)` and
`password.chars().nth(second_spot)`. -/
def is_valid (r : PasswordRule) : Bool :=
  match r.password.get? r.first_spot, r.password.get? r.second_spot with
  | some x, some y =>
    if x == r.target_char && y == r.target_char then false
    else if x == r.target_char then true
    else if y == r.target_char then true
    else false
  | some x, none => x == r.target_char
  | none, some y => y == r.target_char
  | none, none => false

def isDigitC (c : Char) : Bool := 48 ≤ c.toNat && c.toNat ≤ 57

def isLowerC (c : Char) : Bool := 97 ≤ c.toNat && c.toNat ≤ 122

/-- The day-02 skip class, the logos regex `[ \t\n\f]+`. -/
def isWsC (c : Char) : Bool :=
  c.toNat = 32 || c.toNat = 9 || c.toNat = 10 || c.toNat = 12

def digitsToNat (ds : List Char) : Nat :=
  ds.foldl (fun a c => 10 * a + (c.toNat - 48)) 0

/-- One step of the day-02 lexer: produces the token starting at the head of
the input (or `(none, rest)` for a skipped whitespace run), together with the
remaining input; `none` on exhausted input.  Follows the logos
maximal-munch semantics of the four rules of `PasswordRuleToken`: a digit run
is a `Number` (a u64 parse failure, i.e. a value of at least 2^64, yields the
`Error` variant as the logos callback fails), `-` is `Dash`, a single
lowercase letter directly followed by a colon is `TargetCharacter` (the
two-character match `[a-z]:` beats the one-letter `[a-z]+` match), any other
lowercase run is `Password`, whitespace is skipped, and any other character
is one `Error` token. -/
def prNext (cs : List Char) : Option (Option PRToken × List Char) :=
  match cs with
  | [] => none
  | c :: rest =>
    if isDigitC c then
      let v := digitsToNat (cs.takeWhile isDigitC)
      some (some (if v < 2 ^ 64 then PRToken.Number v else PRToken.Error),
        cs.dropWhile isDigitC)
    else if c == '-' then some (some PRToken.Dash, rest)
    else if isLowerC c then
      let run := cs.takeWhile isLowerC
      let after := cs.dropWhile isLowerC
      if run.length == 1 && after.head? == some (':') then
        some (some (PRToken.TargetCharacter c), after.tail)
      else some (some (PRToken.Password run), after)
    else if isWsC c then some (none, cs.dropWhile isWsC)
    else some (some PRToken.Error, rest)

/-- Run the day-02 lexer to a token list, with explicit fuel (every
step of `prNext` consumes at least one character, so `cs.length` steps
suffice). -/
def lexPRAux : Nat → List Char → List PRToken
  | 0, _ => []
  | Nat.succ fuel, cs =>
    match prNext cs with
    | none => []
    | some (some t, cs') => t :: lexPRAux fuel cs'
    | some (none, cs') => lexPRAux fuel cs'

/-- The full token sequence the day-02 lexer produces for an input text. -/
def lexPR (cs : List Char) : List PRToken :=
  lexPRAux cs.length cs

/-- `Parser::parse_rule` from `day-02.rs`, over the token stream: pulls five
tokens in order (number, dash, number, target character, password) and builds
the record, returning `Except.error` with the corresponding message on the
first unexpected token or on end of input.  The outer `Option` models the
u64 underflow of `(n - 1) as usize` in the source: a `Number` token carrying
0 makes the subtraction underflow (a panic in a debug build), modelled as
`none`. -/
def parse_rule (ts : List PRToken) :
    Option (Except String (PasswordRule × List PRToken)) :=
  match ts with
  | PRToken.Number n :: rest1 =>
    if n = 0 then none
    else
      match rest1 with
      | PRToken.Dash :: rest2 =>
        match rest2 with
        | PRToken.Number m :: rest3 =>
          if m = 0 then none
          else
            match rest3 with
            | PRToken.TargetCharacter c :: rest4 =>
              match rest4 with
              | PRToken.Password p :: rest5 =>
                some (Except.ok
                  ({ first_spot := n - 1, second_spot := m - 1,
                     target_char := c, password := p }, rest5))
              | _ => some (Except.error ("Expected the password itself!"))
            | _ => some (Except.error ("Expected the required target character!"))
        | _ => some (Except.error ("Expected the second password rule number!"))
      | _ => some (Except.error ("Expected the dash!"))
  | _ => some (Except.error ("Expected the first password rule number!"))

/-- The iterator `ParserIntoIter::next` of `day-02.rs` collected to a list:
each call runs `parse_rule`; an `Ok` record is yielded and iteration
continues on the remaining tokens, any `Err` ends the whole iteration.  The
outer `Option` propagates the underflow panic of `parse_rule`. -/
def rulesIter : Nat → List PRToken → Option (List PasswordRule)
  | 0, _ => some []
  | Nat.succ fuel, ts =>
    match parse_rule ts with
    | none => none
    | some (Except.error _) => some []
    | some (Except.ok (r, ts')) =>
      match rulesIter fuel ts' with
      | none => none
      | some rs => some (r :: rs)

/-- All records the day-02 iterator yields for a token stream (a successful
`parse_rule` consumes five tokens, so `ts.length + 1` calls suffice). -/
def rulesOf (ts : List PRToken) : Option (List PasswordRule) :=
  rulesIter (ts.length + 1) ts

/-- The hypothesis of the index-conversion claim: every `Number` token of the
stream carries a value of at least 1. -/
def allNumbersPos : List PRToken → Bool
  | [] => true
  | PRToken.Number n :: ts => !(n == 0) && allNumbersPos ts
  | _ :: ts => allNumbersPos ts

end Day02

namespace Day03

/-- Token type of the day-03 lexer (`Tile` in `day-03.rs`).  `Error` is the
logos error variant; the skip rule `[ \t\f]+` never becomes a token. -/
inductive Tile where
  | Open
  | Tree
  | RowEnd
  | Error
  deriving DecidableEq

/-- The day-03 lexer: `.` is `Open`, `#` is `Tree`, a newline is `RowEnd`,
space, tab and form feed are skipped, and any other character is one `Error`
token. -/
def lexTiles : List Char → List Tile
  | [] => []
  | c :: cs =>
    if c == '.' then Tile.Open :: lexTiles cs
    else if c == '#' then Tile.Tree :: lexTiles cs
    else if c.toNat = 10 then Tile.RowEnd :: lexTiles cs
    else if c.toNat = 32 || c.toNat = 9 || c.toNat = 12 then lexTiles cs
    else Tile.Error :: lexTiles cs

/-- The grid of `day-03.rs` (`Map`): the flattened tile vector plus the
derived height and width, fields in source declaration order. -/
structure Map where
  tiles : List Tile
  height : Nat
  width : Nat
  deriving DecidableEq

/-- `Map::parse` from `day-03.rs`: the width is the number of tokens before
the first `RowEnd` (a lookahead over a clone of the lexer, so `Error` tokens
count too), the tile vector keeps only `Open` and `Tree` tokens, and the
height is `tiles.len() / width`.  When the width is 0 the division by zero
panics in Rust, modelled as `none`. -/
def Map.parse (ts : List Tile) : Option Map :=
  let width := (ts.takeWhile (fun t => !(t == Tile.RowEnd))).length
  let tiles := ts.filter (fun t => t == Tile.Open || t == Tile.Tree)
  if width = 0 then none
  else some { tiles := tiles, height := tiles.length / width, width := width }

/-- `Map::tile_at` from `day-03.rs`: out of bounds below the map is `None`,
otherwise the tile at row `y` and column `x % width` of the flattened
vector.  The vector access `self.tiles[idx]` is modelled with `List.get?`;
the proof of the bounds claim shows the `none` of an out-of-range index never
occurs in the `else` branch. -/
def tile_at (m : Map) (x y : Nat) : Option Tile :=
  if m.height ≤ y then none
  else m.tiles.get? (y * m.width + x % m.width)

/-- The 3-wide, 3-row grid of the spec's wraparound scenario, whose row 0 is
open, tree, open (the source text `.#.\n#.#\n..#`). -/
def mapEx : Map :=
  ⟨[Tile.Open, Tile.Tree, Tile.Open, Tile.Tree, Tile.Open, Tile.Tree,
    Tile.Open, Tile.Open, Tile.Tree], 3, 3⟩

end Day03

namespace Day04

/-- Token type of the day-04 lexer (`Fact` in `day-04.rs`).  The eight field
tokens carry the value after the `tag:` prefix (the `fact_value` callback
takes `slice[4..]`), `DocumentEnd` is the blank-line separator `\n\n+`,
`Invalid` is the catch-all `[^[:space:]]+`, and `Error` is the logos error
variant doubling as the whitespace skip rule. -/
inductive Fact where
  | BirthYear (s : String)
  | CountryId (s : String)
  | EyeColor (s : String)
  | ExpirationYear (s : String)
  | HairColor (s : String)
  | Height (s : String)
  | IssueYear (s : String)
  | PassportId (s : String)
  | DocumentEnd
  | Invalid
  | Error
  deriving DecidableEq

/-- The record assembled by the day-04 reader (`Passport` in `day-04.rs`):
eight optional fields, in source declaration order. -/
structure Passport where
  birth_year : Option String
  country_id : Option String
  eye_color : Option String
  expiration_year : Option String
  hair_color : Option String
  height : Option String
  issue_year : Option String
  passport_id : Option String
  deriving DecidableEq

/-- `Passport::default()`: all eight fields absent. -/
def Passport.default : Passport :=
  ⟨none, none, none, none, none, none, none, none⟩

/-- `Passport::is_empty` from `day-04.rs`: all eight fields are `None`. -/
def Passport.is_empty (p : Passport) : Bool :=
  p.birth_year.isNone && p.country_id.isNone && p.eye_color.isNone &&
    p.expiration_year.isNone && p.hair_color.isNone && p.height.isNone &&
    p.issue_year.isNone && p.passport_id.isNone

/-- `Passport::is_valid` from `day-04.rs`: the seven required fields (all but
`country_id`) are present. -/
def Passport.is_valid (p : Passport) : Bool :=
  p.birth_year.isSome && p.eye_color.isSome && p.expiration_year.isSome &&
    p.hair_color.isSome && p.height.isSome && p.issue_year.isSome &&
    p.passport_id.isSome

/-- `<PassportParser as Iterator>::next` from `day-04.rs`, over the token
stream, with the in-progress accumulator made explicit (each Rust call starts
from `Passport::default()`): end of input or `DocumentEnd` emits the
accumulator unless it is empty, in which case the whole iteration signals
exhaustion; `Invalid` and `Error` tokens are reported on the diagnostic
stream (a side effect outside this embedding) and skipped; a field token
stores its value into the corresponding slot, overwriting any earlier
value. -/
def nextPassport (acc : Passport) : List Fact → Option (Passport × List Fact)
  | [] => if acc.is_empty = true then none else some (acc, [])
  | Fact.DocumentEnd :: ts => if acc.is_empty = true then none else some (acc, ts)
  | Fact.Invalid :: ts => nextPassport acc ts
  | Fact.Error :: ts => nextPassport acc ts
  | Fact.BirthYear v :: ts => nextPassport { acc with birth_year := some v } ts
  | Fact.CountryId v :: ts => nextPassport { acc with country_id := some v } ts
  | Fact.EyeColor v :: ts => nextPassport { acc with eye_color := some v } ts
  | Fact.ExpirationYear v :: ts => nextPassport { acc with expiration_year := some v } ts
  | Fact.HairColor v :: ts => nextPassport { acc with hair_color := some v } ts
  | Fact.Height v :: ts => nextPassport { acc with height := some v } ts
  | Fact.IssueYear v :: ts => nextPassport { acc with issue_year := some v } ts
  | Fact.PassportId v :: ts => nextPassport { acc with passport_id := some v } ts

/-- The day-04 iterator collected to a list: repeated calls of
`nextPassport` from a fresh default accumulator, with explicit fuel (each
call that yields a record consumes at least one token, so `ts.length + 1`
calls suffice). -/
def passports : Nat → List Fact → List Passport
  | 0, _ => []
  | Nat.succ fuel, ts =>
    match nextPassport Passport.default ts with
    | none => []
    | some (p, ts') => p :: passports fuel ts'

/-- The effect of one token on the accumulator, factoring the eight
field-storing branches of `nextPassport` (`DocumentEnd`, `Invalid` and
`Error` leave the accumulator unchanged). -/
def applyFact (acc : Passport) : Fact → Passport
  | Fact.BirthYear v => { acc with birth_year := some v }
  | Fact.CountryId v => { acc with country_id := some v }
  | Fact.EyeColor v => { acc with eye_color := some v }
  | Fact.ExpirationYear v => { acc with expiration_year := some v }
  | Fact.HairColor v => { acc with hair_color := some v }
  | Fact.Height v => { acc with height := some v }
  | Fact.IssueYear v => { acc with issue_year := some v }
  | Fact.PassportId v => { acc with passport_id := some v }
  | Fact.DocumentEnd => acc
  | Fact.Invalid => acc
  | Fact.Error => acc

/-- Tokens that populate a field slot. -/
def isField : Fact → Bool
  | Fact.DocumentEnd => false
  | Fact.Invalid => false
  | Fact.Error => false
  | _ => true

/-- A token stream with no `DocumentEnd` terminator. -/
def noTerm (ts : List Fact) : Bool :=
  ts.all fun t => !(t == Fact.DocumentEnd)

/-- Number of terminator markers of a stream, following the spec's
record-count property. -/
def numTerms : List Fact → Nat
  | [] => 0
  | Fact.DocumentEnd :: ts => numTerms ts + 1
  | _ :: ts => numTerms ts

/-- Whether a field-bearing token occurs in the current record segment,
threaded through the stream: the flag resets at each terminator; the final
value says whether the trailing run of content holds a field. -/
def seenAfter (seen : Bool) : List Fact → Bool
  | [] => seen
  | Fact.DocumentEnd :: ts => seenAfter false ts
  | t :: ts => seenAfter (seen || isField t) ts

/-- Streams on which every terminator closes a segment holding at least one
field-bearing token (the precondition of the record-count property). -/
def wfFrom (seen : Bool) : List Fact → Bool
  | [] => true
  | Fact.DocumentEnd :: ts => seen && wfFrom false ts
  | t :: ts => wfFrom (seen || isField t) ts

/-- Reference recursion for the collected day-04 iterator: emit the
accumulator at each terminator while it is nonempty, stop the whole
iteration at a terminator on an empty accumulator.  Proved equal to
`passports` below. -/
def emitAll (acc : Passport) : List Fact → List Passport
  | [] => if acc.is_empty = true then [] else [acc]
  | Fact.DocumentEnd :: ts =>
    if acc.is_empty = true then [] else acc :: emitAll Passport.default ts
  | Fact.Invalid :: ts => emitAll acc ts
  | Fact.Error :: ts => emitAll acc ts
  | t :: ts => emitAll (applyFact acc t) ts

/-- The value of the last token of a given field in a stream (the selector
returns the payload of tokens of that field), following the claim's
last-write-wins reading. -/
def lastFact (sel : Fact → Option String) (ts : List Fact) : Option String :=
  ts.foldl (fun o t => match sel t with | some v => some v | none => o) none

def selBirth : Fact → Option String
  | Fact.BirthYear v => some v
  | _ => none

def selCountry : Fact → Option String
  | Fact.CountryId v => some v
  | _ => none

def selEye : Fact → Option String
  | Fact.EyeColor v => some v
  | _ => none

def selExpiration : Fact → Option String
  | Fact.ExpirationYear v => some v
  | _ => none

def selHair : Fact → Option String
  | Fact.HairColor v => some v
  | _ => none

def selHeight : Fact → Option String
  | Fact.Height v => some v
  | _ => none

def selIssue : Fact → Option String
  | Fact.IssueYear v => some v
  | _ => none

def selPassId : Fact → Option String
  | Fact.PassportId v => some v
  | _ => none

def isSkipC (c : Char) : Bool :=
  c.toNat = 32 || c.toNat = 9 || c.toNat = 10 || c.toNat = 12

def isSpaceC (c : Char) : Bool :=
  isSkipC c || c.toNat = 13 || c.toNat = 11

def isAlnumC (c : Char) : Bool :=
  (48 ≤ c.toNat && c.toNat ≤ 57) || (65 ≤ c.toNat && c.toNat ≤ 90) ||
    (97 ≤ c.toNat && c.toNat ≤ 122)

def isAlnumHashC (c : Char) : Bool :=
  isAlnumC c || c.toNat = 35

/-- Match one of the eight `tag:value` field rules of `Fact` at the start of
a non-space run: the four-character tag, then a nonempty run of the value
class (`[:alnum:]`, with `#` also allowed for `cid`, `hcl` and `pid`).
Returns the match length and the token (carrying `slice[4..]`). -/
def fieldMatch (r : List Char) : Option (Nat × Fact) :=
  match r with
  | 'b' :: 'y' :: 'r' :: ':' :: rest =>
    let v := rest.takeWhile isAlnumC
    if v.length == 0 then none else some (4 + v.length, Fact.BirthYear v.asString)
  | 'c' :: 'i' :: 'd' :: ':' :: rest =>
    let v := rest.takeWhile isAlnumHashC
    if v.length == 0 then none else some (4 + v.length, Fact.CountryId v.asString)
  | 'e' :: 'c' :: 'l' :: ':' :: rest =>
    let v := rest.takeWhile isAlnumC
    if v.length == 0 then none else some (4 + v.length, Fact.EyeColor v.asString)
  | 'e' :: 'y' :: 'r' :: ':' :: rest =>
    let v := rest.takeWhile isAlnumC
    if v.length == 0 then none else some (4 + v.length, Fact.ExpirationYear v.asString)
  | 'h' :: 'c' :: 'l' :: ':' :: rest =>
    let v := rest.takeWhile isAlnumHashC
    if v.length == 0 then none else some (4 + v.length, Fact.HairColor v.asString)
  | 'h' :: 'g' :: 't' :: ':' :: rest =>
    let v := rest.takeWhile isAlnumC
    if v.length == 0 then none else some (4 + v.length, Fact.Height v.asString)
  | 'i' :: 'y' :: 'r' :: ':' :: rest =>
    let v := rest.takeWhile isAlnumC
    if v.length == 0 then none else some (4 + v.length, Fact.IssueYear v.asString)
  | 'p' :: 'i' :: 'd' :: ':' :: rest =>
    let v := rest.takeWhile isAlnumHashC
    if v.length == 0 then none else some (4 + v.length, Fact.PassportId v.asString)
  | _ => none

/-- One step of the day-04 lexer, following the logos maximal-munch
semantics over the rules of `Fact`.  On a whitespace head, the skip rule
`[ \t\n\f]+` and the terminator rule `\n\n+` compete: the terminator wins
only when the maximal whitespace run is a run of at least two newlines
(ties go to the higher-priority `DocumentEnd`; a longer mixed whitespace run
is skipped whole).  On a non-space head, the maximal non-space run is an
`Invalid` token unless one of the eight field rules matches the entire run.
A character in neither class (carriage return or vertical tab) matches no
rule and yields one logos `Error` token. -/
def factNext (cs : List Char) : Option (Option Fact × List Char) :=
  match cs with
  | [] => none
  | c :: rest =>
    if isSkipC c then
      let w := (cs.takeWhile isSkipC).length
      let d := (cs.takeWhile (fun c => c.toNat = 10)).length
      if 2 ≤ d && d == w then some (some Fact.DocumentEnd, cs.drop d)
      else some (none, cs.drop w)
    else if isSpaceC c then some (some Fact.Error, rest)
    else
      let r := cs.takeWhile (fun c => !(isSpaceC c))
      match fieldMatch r with
      | some (len, f) =>
        if len == r.length then some (some f, cs.drop r.length)
        else some (some Fact.Invalid, cs.drop r.length)
      | none => some (some Fact.Invalid, cs.drop r.length)

end Day04

namespace Day01

/-- Checked 32-bit signed addition: `none` models the overflow panic of a
debug-build Rust `i32` addition. -/
def addI32 (a b : Int) : Option Int :=
  if -(2 ^ 31) ≤ a + b ∧ a + b ≤ 2 ^ 31 - 1 then some (a + b) else none

/-- The `'inner` loop of `find_2020` in `day-01.rs`: scan the candidate
third addends; a sum above 2020 aborts the inner loop (`continue 'middle`),
a sum of exactly 2020 returns the third addend, a smaller sum moves on.  The
outer `Option` models an arithmetic-overflow panic. -/
def innerLoop (a b : Int) : List Int → Option (Option Int)
  | [] => some none
  | c :: cs =>
    match addI32 a b with
    | none => none
    | some s1 =>
      match addI32 s1 c with
      | none => none
      | some s =>
        if 2020 < s then some none
        else if s = 2020 then some (some c)
        else innerLoop a b cs

/-- The `'middle` loop of `find_2020`: for each candidate second addend,
a pair sum above 2020 aborts the middle loop (`continue 'outer`); otherwise
the inner loop runs over the whole list. -/
def middleLoop (a : Int) (list : List Int) : List Int → Option (Option (Int × Int))
  | [] => some none
  | b :: bs =>
    match addI32 a b with
    | none => none
    | some s =>
      if 2020 < s then some none
      else
        match innerLoop a b list with
        | none => none
        | some (some c) => some (some (b, c))
        | some none => middleLoop a list bs

/-- The `'outer` loop of `find_2020` over the candidate first addends. -/
def outerLoop (list : List Int) : List Int → Option (Option (Int × Int × Int))
  | [] => some none
  | a :: rest =>
    match middleLoop a list list with
    | none => none
    | some (some (b, c)) => some (some (a, b, c))
    | some none => outerLoop list rest

/-- `find_2020` from `day-01.rs`: the triple nested labelled loop over the
list.  `some none` is the Rust `None` (search exhausted), the outer `none`
an arithmetic-overflow panic. -/
def find_2020 (list : List Int) : Option (Option (Int × Int × Int)) :=
  outerLoop list list

end Day01

/-- A run of a lexer: `next` maps the remaining input to the token starting
at its head (`none` in the first component for a skipped run) and the rest
of the input, or to `none` at end of input; `LexRun next cs ts` says the run
from input `cs` produces exactly the token sequence `ts`. -/
inductive LexRun {τ : Type} (next : List Char → Option (Option τ × List Char)) :
    List Char → List τ → Prop where
  | done : ∀ {cs : List Char}, next cs = none → LexRun next cs []
  | emit : ∀ {cs : List Char} {t : τ} {cs' : List Char} {ts : List τ},
      next cs = some (some t, cs') → LexRun next cs' ts → LexRun next cs (t :: ts)
  | skip : ∀ {cs cs' : List Char} {ts : List τ},
      next cs = some (none, cs') → LexRun next cs' ts → LexRun next cs ts

namespace Day02

theorem is_valid_xor (r : PasswordRule) : is_valid r = true ↔
    Xor' (r.password.get? r.first_spot = some r.target_char)
      (r.password.get? r.second_spot = some r.target_char) := by
  unfold is_valid
  cases hf : r.password.get? r.first_spot with
  | none =>
    cases hs : r.password.get? r.second_spot with
    | none => simp [Xor']
    | some y => by_cases hy : y = r.target_char <;> simp [Xor', hy]
  | some x =>
    cases hs : r.password.get? r.second_spot with
    | none => by_cases hx : x = r.target_char <;> simp [Xor', hx]
    | some y =>
      by_cases hx : x = r.target_char <;> by_cases hy : y = r.target_char <;>
        simp [Xor', hx, hy]

theorem is_valid_both (r : PasswordRule)
    (h1 : r.password.get? r.first_spot = some r.target_char)
    (h2 : r.password.get? r.second_spot = some r.target_char) :
    is_valid r = false := by
  unfold is_valid
  rw [h1, h2]
  simp

theorem parse_rule_no_underflow :
    ∀ ts : List PRToken, allNumbersPos ts = true → parse_rule ts ≠ none := by
  intro ts hpos
  cases ts with
  | nil => simp [parse_rule]
  | cons t1 rest1 =>
    cases t1 with
    | Dash => simp [parse_rule]
    | TargetCharacter c => simp [parse_rule]
    | Password p => simp [parse_rule]
    | Error => simp [parse_rule]
    | Number n =>
      have hn : ¬ n = 0 := by
        simp [allNumbersPos] at hpos
        exact hpos.1
      have hpos1 : allNumbersPos rest1 = true := by
        simp [allNumbersPos] at hpos
        exact hpos.2
      cases rest1 with
      | nil => simp [parse_rule, hn]
      | cons t2 rest2 =>
        cases t2 with
        | Number k => simp [parse_rule, hn]
        | TargetCharacter c => simp [parse_rule, hn]
        | Password p => simp [parse_rule, hn]
        | Error => simp [parse_rule, hn]
        | Dash =>
          cases rest2 with
          | nil => simp [parse_rule, hn]
          | cons t3 rest3 =>
            cases t3 with
            | Dash => simp [parse_rule, hn]
            | TargetCharacter c => simp [parse_rule, hn]
            | Password p => simp [parse_rule, hn]
            | Error => simp [parse_rule, hn]
            | Number m =>
              have hm : ¬ m = 0 := by
                simp [allNumbersPos] at hpos1
                exact hpos1.1
              cases rest3 with
              | nil => simp [parse_rule, hn, hm]
              | cons t4 rest4 =>
                cases t4 with
                | Number k => simp [parse_rule, hn, hm]
                | Dash => simp [parse_rule, hn, hm]
                | Password p => simp [parse_rule, hn, hm]
                | Error => simp [parse_rule, hn, hm]
                | TargetCharacter c =>
                  cases rest4 with
                  | nil => simp [parse_rule, hn, hm]
                  | cons t5 rest5 =>
                    cases t5 <;> simp [parse_rule, hn, hm]

theorem parse_rule_spots (n m : Nat) (c : Char) (p : List Char)
    (rest : List PRToken) (hn : 1 ≤ n) (hm : 1 ≤ m) :
    parse_rule (PRToken.Number n :: PRToken.Dash :: PRToken.Number m ::
        PRToken.TargetCharacter c :: PRToken.Password p :: rest) =
      some (Except.ok
        ({ first_spot := n - 1, second_spot := m - 1,
           target_char := c, password := p }, rest)) := by
  have hn0 : ¬ n = 0 := by omega
  have hm0 : ¬ m = 0 := by omega
  simp [parse_rule, hn0, hm0]

end Day02

theorem lexRun_det {τ : Type} (next : List Char → Option (Option τ × List Char))
    {cs : List Char} {ts1 : List τ} (h1 : LexRun next cs ts1) :
    ∀ ts2 : List τ, LexRun next cs ts2 → ts1 = ts2 := by
  induction h1 with
  | done h =>
    intro ts2 h2
    cases h2 with
    | done h2 => rfl
    | emit h2 hr => rw [h] at h2; exact Option.noConfusion h2
    | skip h2 hr => rw [h] at h2; exact Option.noConfusion h2
  | emit h hr ih =>
    intro ts2 h2
    cases h2 with
    | done h2 => rw [h] at h2; exact Option.noConfusion h2
    | emit h2 hr2 =>
      rw [h] at h2
      injection h2 with h3
      injection h3 with ha hb
      injection ha with hc
      subst hc
      subst hb
      rw [ih _ hr2]
    | skip h2 hr2 =>
      rw [h] at h2
      injection h2 with h3
      injection h3 with ha hb
      exact Option.noConfusion ha
  | skip h hr ih =>
    intro ts2 h2
    cases h2 with
    | done h2 => rw [h] at h2; exact Option.noConfusion h2
    | emit h2 hr2 =>
      rw [h] at h2
      injection h2 with h3
      injection h3 with ha hb
      exact Option.noConfusion ha
    | skip h2 hr2 =>
      rw [h] at h2
      injection h2 with h3
      injection h3 with ha hb
      subst hb
      exact ih _ hr2

namespace Day03

theorem parse_fields {ts : List Tile} {m : Map} (h : Map.parse ts = some m) :
    0 < m.width ∧ m.height = m.tiles.length / m.width := by
  simp only [Map.parse] at h
  split at h
  · exact Option.noConfusion h
  · rename_i hne
    injection h with h
    subst h
    refine ⟨?_, rfl⟩
    show 0 < (ts.takeWhile (fun t => !(t == Tile.RowEnd))).length
    omega

theorem tile_at_oob (m : Map) (x y : Nat) (h : m.height ≤ y) :
    tile_at m x y = none := by
  simp [tile_at, h]

theorem tile_at_wrap (m : Map) (x y : Nat) :
    tile_at m x y = tile_at m (x % m.width) y := by
  unfold tile_at
  rw [Nat.mod_mod_of_dvd x (dvd_refl m.width)]

theorem tile_at_in_bounds {ts : List Tile} {m : Map} (h : Map.parse ts = some m)
    (x y : Nat) (hy : y < m.height) :
    y * m.width + x % m.width < m.tiles.length := by
  obtain ⟨hw, hh⟩ := parse_fields h
  have hx : x % m.width < m.width := Nat.mod_lt _ hw
  have h1 : y * m.width + x % m.width < (y + 1) * m.width := by
    rw [Nat.succ_mul]; omega
  have h2 : (y + 1) * m.width ≤ m.height * m.width :=
    Nat.mul_le_mul_right _ hy
  have h3 : m.height * m.width ≤ m.tiles.length := by
    rw [hh]; exact Nat.div_mul_le_self _ _
  omega

end Day03

namespace Day04

theorem default_is_empty : Passport.default.is_empty = true := rfl

theorem emitAll_length : ∀ (ts : List Fact) (acc : Passport) (seen : Bool),
    acc.is_empty = !seen → wfFrom seen ts = true →
    (emitAll acc ts).length =
      numTerms ts + (if seenAfter seen ts = true then 1 else 0) := by
  intro ts
  induction ts with
  | nil =>
    intro acc seen hacc hwf
    cases seen <;> simp_all [emitAll, numTerms, seenAfter]
  | cons t ts ih =>
    intro acc seen hacc hwf
    cases t
    case DocumentEnd =>
      simp only [wfFrom, Bool.and_eq_true] at hwf
      obtain ⟨hseen, hwf⟩ := hwf
      subst hseen
      have hne : acc.is_empty = false := by rw [hacc]; rfl
      have hrw : emitAll acc (Fact.DocumentEnd :: ts) =
          acc :: emitAll Passport.default ts := by
        simp [emitAll, hne]
      rw [hrw]
      simp only [List.length_cons, numTerms, seenAfter]
      rw [ih Passport.default false rfl hwf]
      omega
    case Invalid =>
      have hwf' : wfFrom seen ts = true := by
        simpa [wfFrom, isField] using hwf
      simp only [emitAll, numTerms, seenAfter, isField, Bool.or_false]
      exact ih acc seen hacc hwf'
    case Error =>
      have hwf' : wfFrom seen ts = true := by
        simpa [wfFrom, isField] using hwf
      simp only [emitAll, numTerms, seenAfter, isField, Bool.or_false]
      exact ih acc seen hacc hwf'
    all_goals
      rename_i v
      have hwf' : wfFrom true ts = true := by
        simpa [wfFrom, isField] using hwf
      simp only [emitAll, numTerms, seenAfter, isField, Bool.or_true]
      exact ih _ true (by simp [applyFact, Passport.is_empty]) hwf'

theorem emitAll_nonempty : ∀ (ts : List Fact) (acc p : Passport),
    p ∈ emitAll acc ts → p.is_empty = false := by
  intro ts
  induction ts with
  | nil =>
    intro acc p h
    by_cases he : acc.is_empty = true
    · simp [emitAll, he] at h
    · simp only [emitAll, if_neg he, List.mem_singleton] at h
      subst h
      simpa using he
  | cons t ts ih =>
    intro acc p h
    cases t
    case DocumentEnd =>
      by_cases he : acc.is_empty = true
      · simp [emitAll, he] at h
      · simp only [emitAll, if_neg he, List.mem_cons] at h
        cases h with
        | inl h => subst h; simpa using he
        | inr h => exact ih Passport.default p h
    case Invalid => exact ih acc p (by simpa [emitAll] using h)
    case Error => exact ih acc p (by simpa [emitAll] using h)
    all_goals
      rename_i v
      exact ih _ p (by simpa [emitAll] using h)

theorem nextPassport_none_emitAll : ∀ (ts : List Fact) (acc : Passport),
    nextPassport acc ts = none → emitAll acc ts = [] := by
  intro ts
  induction ts with
  | nil =>
    intro acc h
    by_cases he : acc.is_empty = true
    · simp [emitAll, he]
    · simp [nextPassport, he] at h
  | cons t ts ih =>
    intro acc h
    cases t
    case DocumentEnd =>
      by_cases he : acc.is_empty = true
      · simp [emitAll, he]
      · simp [nextPassport, he] at h
    case Invalid =>
      simp only [nextPassport] at h
      simpa [emitAll] using ih acc h
    case Error =>
      simp only [nextPassport] at h
      simpa [emitAll] using ih acc h
    all_goals
      rename_i v
      simp only [nextPassport] at h
      simp only [emitAll]
      exact ih _ h

theorem nextPassport_some_emitAll :
    ∀ (ts : List Fact) (acc p : Passport) (ts' : List Fact),
    nextPassport acc ts = some (p, ts') →
      emitAll acc ts = p :: emitAll Passport.default ts' := by
  intro ts
  induction ts with
  | nil =>
    intro acc p ts' h
    by_cases he : acc.is_empty = true
    · simp [nextPassport, he] at h
    · simp only [nextPassport, if_neg he] at h
      injection h with h
      injection h with h1 h2
      subst h1
      subst h2
      simp [emitAll, he, default_is_empty]
  | cons t ts ih =>
    intro acc p ts' h
    cases t
    case DocumentEnd =>
      by_cases he : acc.is_empty = true
      · simp [nextPassport, he] at h
      · simp only [nextPassport, if_neg he] at h
        injection h with h
        injection h with h1 h2
        subst h1
        subst h2
        simp [emitAll, he]
    case Invalid =>
      simp only [nextPassport] at h
      simpa [emitAll] using ih acc p ts' h
    case Error =>
      simp only [nextPassport] at h
      simpa [emitAll] using ih acc p ts' h
    all_goals
      rename_i v
      simp only [nextPassport] at h
      simp only [emitAll]
      exact ih _ p ts' h

theorem nextPassport_des : ∀ (ts : List Fact) (acc p : Passport) (ts' : List Fact),
    nextPassport acc ts = some (p, ts') →
    ts'.length ≤ ts.length ∧ (ts' = [] ∨ ts'.length < ts.length) := by
  intro ts
  induction ts with
  | nil =>
    intro acc p ts' h
    by_cases he : acc.is_empty = true
    · simp [nextPassport, he] at h
    · simp only [nextPassport, if_neg he] at h
      injection h with h
      injection h with h1 h2
      subst h2
      exact ⟨Nat.le_refl _, Or.inl rfl⟩
  | cons t ts ih =>
    intro acc p ts' h
    cases t
    case DocumentEnd =>
      by_cases he : acc.is_empty = true
      · simp [nextPassport, he] at h
      · simp only [nextPassport, if_neg he] at h
        injection h with h
        injection h with h1 h2
        subst h2
        simp only [List.length_cons]
        omega
    case Invalid =>
      simp only [nextPassport] at h
      have := ih acc p ts' h
      simp only [List.length_cons]
      omega
    case Error =>
      simp only [nextPassport] at h
      have := ih acc p ts' h
      simp only [List.length_cons]
      omega
    all_goals
      rename_i v
      simp only [nextPassport] at h
      have := ih _ p ts' h
      simp only [List.length_cons]
      omega

theorem passports_nil : ∀ fuel : Nat, passports fuel [] = [] := by
  intro fuel
  cases fuel with
  | zero => rfl
  | succ fuel => simp [passports, nextPassport, Passport.default, Passport.is_empty]

theorem passports_eq : ∀ (fuel : Nat) (ts : List Fact), ts.length < fuel →
    passports fuel ts = emitAll Passport.default ts := by
  intro fuel
  induction fuel with
  | zero => intro ts h; exact absurd h (Nat.not_lt_zero _)
  | succ fuel ih =>
    intro ts h
    cases hnp : nextPassport Passport.default ts with
    | none =>
      simp only [passports, hnp]
      exact (nextPassport_none_emitAll ts _ hnp).symm
    | some pr =>
      obtain ⟨p, ts'⟩ := pr
      simp only [passports, hnp]
      rw [nextPassport_some_emitAll ts _ p ts' hnp]
      obtain ⟨hle, hcase⟩ := nextPassport_des ts _ p ts' hnp
      cases hcase with
      | inl hnil =>
        subst hnil
        rw [passports_nil]
        simp [emitAll, Passport.default, Passport.is_empty]
      | inr hlt =>
        rw [ih ts' (by omega)]

theorem lastFact_shift (sel : Fact → Option String) :
    ∀ (ts : List Fact) (o : Option String),
      ts.foldl (fun o t => match sel t with | some v => some v | none => o) o =
        match lastFact sel ts with | some v => some v | none => o := by
  intro ts
  induction ts with
  | nil => intro o; simp [lastFact]
  | cons t ts ih =>
    intro o
    have hcons : lastFact sel (t :: ts) =
        ts.foldl (fun o t => match sel t with | some v => some v | none => o)
          (match sel t with | some v => some v | none => none) := by
      simp [lastFact, List.foldl]
    simp only [List.foldl]
    rw [ih, hcons, ih]
    cases hl : lastFact sel ts <;> cases hst : sel t <;> simp [hl, hst]

theorem foldl_applyFact_last (g : Passport → Option String)
    (sel : Fact → Option String)
    (hg : ∀ (acc : Passport) (t : Fact), g (applyFact acc t) =
      match sel t with | some v => some v | none => g acc) :
    ∀ (ts : List Fact) (acc : Passport),
      g (ts.foldl applyFact acc) =
        match lastFact sel ts with | some v => some v | none => g acc := by
  intro ts
  induction ts with
  | nil => intro acc; simp [lastFact]
  | cons t ts ih =>
    intro acc
    have hcons : lastFact sel (t :: ts) =
        ts.foldl (fun o t => match sel t with | some v => some v | none => o)
          (match sel t with | some v => some v | none => none) := by
      simp [lastFact, List.foldl]
    simp only [List.foldl]
    rw [ih, hcons, lastFact_shift]
    cases hl : lastFact sel ts <;> cases hst : sel t <;> simp [hl, hst, hg]

theorem nextPassport_append : ∀ (pre : List Fact) (acc : Passport) (rest : List Fact),
    noTerm pre = true →
    nextPassport acc (pre ++ Fact.DocumentEnd :: rest) =
      if (pre.foldl applyFact acc).is_empty = true then none
      else some (pre.foldl applyFact acc, rest) := by
  intro pre
  induction pre with
  | nil => intro acc rest h; simp [nextPassport, List.foldl]
  | cons t pre ih =>
    intro acc rest h
    cases t
    case DocumentEnd => simp [noTerm] at h
    case Invalid =>
      have h' : noTerm pre = true := by simpa [noTerm] using h
      simpa [nextPassport, List.foldl, applyFact] using ih acc rest h'
    case Error =>
      have h' : noTerm pre = true := by simpa [noTerm] using h
      simpa [nextPassport, List.foldl, applyFact] using ih acc rest h'
    all_goals
      rename_i v
      have h' : noTerm pre = true := by simpa [noTerm] using h
      simpa [nextPassport, List.foldl, applyFact] using ih _ rest h'

theorem nextPassport_trailing : ∀ (pre : List Fact) (acc : Passport),
    noTerm pre = true →
    nextPassport acc pre =
      if (pre.foldl applyFact acc).is_empty = true then none
      else some (pre.foldl applyFact acc, []) := by
  intro pre
  induction pre with
  | nil => intro acc h; simp [nextPassport, List.foldl]
  | cons t pre ih =>
    intro acc h
    cases t
    case DocumentEnd => simp [noTerm] at h
    case Invalid =>
      have h' : noTerm pre = true := by simpa [noTerm] using h
      simpa [nextPassport, List.foldl, applyFact] using ih acc h'
    case Error =>
      have h' : noTerm pre = true := by simpa [noTerm] using h
      simpa [nextPassport, List.foldl, applyFact] using ih acc h'
    all_goals
      rename_i v
      have h' : noTerm pre = true := by simpa [noTerm] using h
      simpa [nextPassport, List.foldl, applyFact] using ih _ h'

end Day04

namespace Day01

theorem addI32_some {a b s : Int} (h : addI32 a b = some s) : s = a + b := by
  unfold addI32 at h
  split at h
  · injection h with h
    exact h.symm
  · exact Option.noConfusion h

theorem innerLoop_sound : ∀ (cs : List Int) (a b c : Int),
    innerLoop a b cs = some (some c) → c ∈ cs ∧ a + b + c = 2020 := by
  intro cs
  induction cs with
  | nil => intro a b c h; simp [innerLoop] at h
  | cons d cs ih =>
    intro a b c h
    simp only [innerLoop] at h
    cases h1 : addI32 a b with
    | none => rw [h1] at h; simp at h
    | some s1 =>
      rw [h1] at h
      dsimp only at h
      cases h2 : addI32 s1 d with
      | none => rw [h2] at h; simp at h
      | some s =>
        rw [h2] at h
        dsimp only at h
        by_cases hgt : 2020 < s
        · rw [if_pos hgt] at h; simp at h
        · rw [if_neg hgt] at h
          by_cases heq : s = 2020
          · rw [if_pos heq] at h
            injection h with h
            injection h with h
            have e1 := addI32_some h1
            have e2 := addI32_some h2
            subst h
            exact ⟨List.mem_cons_self d cs, by omega⟩
          · rw [if_neg heq] at h
            obtain ⟨hm, hs⟩ := ih a b c h
            exact ⟨List.mem_cons_of_mem d hm, hs⟩

theorem middleLoop_sound : ∀ (bs : List Int) (a : Int) (list : List Int) (b c : Int),
    middleLoop a list bs = some (some (b, c)) →
    b ∈ bs ∧ c ∈ list ∧ a + b + c = 2020 := by
  intro bs
  induction bs with
  | nil => intro a list b c h; simp [middleLoop] at h
  | cons b0 bs ih =>
    intro a list b c h
    simp only [middleLoop] at h
    cases h1 : addI32 a b0 with
    | none => rw [h1] at h; simp at h
    | some s =>
      rw [h1] at h
      dsimp only at h
      by_cases hgt : 2020 < s
      · rw [if_pos hgt] at h; simp at h
      · rw [if_neg hgt] at h
        cases h2 : innerLoop a b0 list with
        | none => rw [h2] at h; simp at h
        | some oc =>
          rw [h2] at h
          cases oc with
          | none =>
            dsimp only at h
            obtain ⟨hb, hc, hs⟩ := ih a list b c h
            exact ⟨List.mem_cons_of_mem _ hb, hc, hs⟩
          | some c0 =>
            dsimp only at h
            injection h with h
            injection h with h
            injection h with hb hc
            subst hb
            subst hc
            obtain ⟨hmc, hs⟩ := innerLoop_sound list a b0 c0 h2
            exact ⟨List.mem_cons_self _ _, hmc, hs⟩

theorem outerLoop_sound : ∀ (rest : List Int) (list : List Int) (a b c : Int),
    outerLoop list rest = some (some (a, b, c)) →
    a ∈ rest ∧ b ∈ list ∧ c ∈ list ∧ a + b + c = 2020 := by
  intro rest
  induction rest with
  | nil => intro list a b c h; simp [outerLoop] at h
  | cons a0 rest ih =>
    intro list a b c h
    simp only [outerLoop] at h
    cases h1 : middleLoop a0 list list with
    | none => rw [h1] at h; simp at h
    | some obc =>
      rw [h1] at h
      cases obc with
      | none =>
        dsimp only at h
        obtain ⟨ha, hb, hc, hs⟩ := ih list a b c h
        exact ⟨List.mem_cons_of_mem _ ha, hb, hc, hs⟩
      | some bc =>
        obtain ⟨b0, c0⟩ := bc
        dsimp only at h
        injection h with h
        injection h with h
        injection h with ha h
        injection h with hb hc
        subst ha
        subst hb
        subst hc
        obtain ⟨hb, hc, hs⟩ := middleLoop_sound list a0 list b0 c0 h1
        exact ⟨List.mem_cons_self _ _, hb, hc, hs⟩

end Day01

namespace Day04

theorem lastFact_default (g : Passport → Option String) (sel : Fact → Option String)
    (hg : ∀ (acc : Passport) (t : Fact), g (applyFact acc t) =
      match sel t with | some v => some v | none => g acc)
    (hd : g Passport.default = none) (pre : List Fact) :
    g (pre.foldl applyFact Passport.default) = lastFact sel pre := by
  rw [foldl_applyFact_last g sel hg pre Passport.default, hd]
  cases hlf : lastFact sel pre <;> simp [hlf]

end Day04

/-- Claim C1, counterexample: for the day-02 rule reader the recovery story
fails.  The suffix after a logos `Error` token parses to a record on its own,
but with the `Error` token in front the collected iteration yields no record
at all: an unrecognized token ends the whole day-02 parse instead of being
skipped with a diagnostic. -/
theorem claim_C1_counterexample :
    Day02.rulesOf ([Day02.PRToken.Error, Day02.PRToken.Number 1, Day02.PRToken.Dash,
        Day02.PRToken.Number 3, Day02.PRToken.TargetCharacter ('a'),
        Day02.PRToken.Password (("abcde").toList)]) = some [] ∧
    Day02.rulesOf ([Day02.PRToken.Number 1, Day02.PRToken.Dash, Day02.PRToken.Number 3,
        Day02.PRToken.TargetCharacter ('a'), Day02.PRToken.Password (("abcde").toList)]) =
      some [⟨0, 2, ('a'), ("abcde").toList⟩] := by
  constructor
  · rfl
  · rfl

/-- Claim C1, amended: only the day-04 passport reader recovers from
invalid tokens: `Invalid` and `Error` tokens are skipped (after a diagnostic
on the error stream, outside this embedding) and accumulation continues, so
the parse result is unchanged by them; the day-02 rule reader instead treats
any unexpected or invalid token as a parse failure that ends the whole
iteration, yielding no further records. -/
theorem claim_C1_amended :
    (∀ (acc : Day04.Passport) (ts : List Day04.Fact),
        Day04.nextPassport acc (Day04.Fact.Invalid :: ts) = Day04.nextPassport acc ts) ∧
    (∀ (acc : Day04.Passport) (ts : List Day04.Fact),
        Day04.nextPassport acc (Day04.Fact.Error :: ts) = Day04.nextPassport acc ts) ∧
    (∀ ts : List Day02.PRToken,
        Day02.rulesOf (Day02.PRToken.Error :: ts) = some []) :=
  ⟨fun _ _ => rfl, fun _ _ => rfl, fun _ => rfl⟩

/-- Claim C2: the day-02 validator is an exclusive-or: `is_valid` holds iff
exactly one of the two designated positions of the password equals the
target character; when both do it returns `false`; and the record parsed
from `1-3 a: abcde` (zero-based spots 0 and 2, target a) has exactly one
matching position and is valid. -/
theorem claim_C2 :
    (∀ r : Day02.PasswordRule, Day02.is_valid r = true ↔
      Xor' (r.password.get? r.first_spot = some r.target_char)
        (r.password.get? r.second_spot = some r.target_char)) ∧
    (∀ r : Day02.PasswordRule,
      r.password.get? r.first_spot = some r.target_char →
      r.password.get? r.second_spot = some r.target_char →
      Day02.is_valid r = false) ∧
    (Day02.parse_rule (Day02.lexPR (("1-3 a: abcde").toList)) =
        some (Except.ok (⟨0, 2, ('a'), ("abcde").toList⟩, [])) ∧
      Day02.is_valid ⟨0, 2, ('a'), ("abcde").toList⟩ = true ∧
      (("abcde").toList.get? 0 = some ('a')) ∧
      ¬(("abcde").toList.get? 2 = some ('a'))) :=
  ⟨Day02.is_valid_xor, Day02.is_valid_both,
    by refine ⟨by rfl, ?_, ?_, ?_⟩ <;> decide⟩

/-- Claim C2, witness: a password holding the target character at both
designated positions is rejected. -/
theorem claim_C2_witness :
    Day02.is_valid ⟨0, 2, ('a'), ("aba").toList⟩ = false :=
  claim_C2.2.1 ⟨0, 2, ('a'), ("aba").toList⟩ (by decide) (by decide)

/-- Claim C3, counterexample: the claimed token sequence for
`1-3 a: abcde\n2-4 b: cdefg\n` omits the `Number 3` token between the first
`Dash` and the first `TargetCharacter`; the day-02 lexer produces ten
tokens, not the claimed nine. -/
theorem claim_C3_counterexample :
    ¬(Day02.lexPR (("1-3 a: abcde\n2-4 b: cdefg\n").toList) =
      [Day02.PRToken.Number 1, Day02.PRToken.Dash,
       Day02.PRToken.TargetCharacter ('a'), Day02.PRToken.Password (("abcde").toList),
       Day02.PRToken.Number 2, Day02.PRToken.Dash, Day02.PRToken.Number 4,
       Day02.PRToken.TargetCharacter ('b'), Day02.PRToken.Password (("cdefg").toList)]) := by
  decide

/-- Claim C3, amended: the input tokenizes to the ten-token sequence with
`Number 3` after the first `Dash`, and parses into exactly two records, the
first with zero-based spots 0 and 2, target a and password abcde. -/
theorem claim_C3_amended :
    Day02.lexPR (("1-3 a: abcde\n2-4 b: cdefg\n").toList) =
      [Day02.PRToken.Number 1, Day02.PRToken.Dash, Day02.PRToken.Number 3,
       Day02.PRToken.TargetCharacter ('a'), Day02.PRToken.Password (("abcde").toList),
       Day02.PRToken.Number 2, Day02.PRToken.Dash, Day02.PRToken.Number 4,
       Day02.PRToken.TargetCharacter ('b'), Day02.PRToken.Password (("cdefg").toList)] ∧
    Day02.rulesOf (Day02.lexPR (("1-3 a: abcde\n2-4 b: cdefg\n").toList)) =
      some [⟨0, 2, ('a'), ("abcde").toList⟩, ⟨1, 3, ('b'), ("cdefg").toList⟩] := by
  constructor
  · decide
  · decide

/-- Claim C4, counterexample: on the well-formed token stream
`[DocumentEnd, BirthYear 1937]` (one terminator marker plus a trailing run
of content, so the claimed count is 2) the day-04 reader emits no record at
all: the leading terminator meets an empty accumulator and the whole
iteration signals exhaustion. -/
theorem claim_C4_counterexample :
    ¬((Day04.passports
          (([Day04.Fact.DocumentEnd, Day04.Fact.BirthYear ("1937")]).length + 1)
          ([Day04.Fact.DocumentEnd, Day04.Fact.BirthYear ("1937")])).length =
      Day04.numTerms ([Day04.Fact.DocumentEnd, Day04.Fact.BirthYear ("1937")]) +
        (if Day04.seenAfter false
            ([Day04.Fact.DocumentEnd, Day04.Fact.BirthYear ("1937")]) = true
         then 1 else 0)) := by
  decide

/-- Claim C4, amended: for every well-formed token stream in which every
terminator closes a segment holding at least one field-bearing token (in
particular no leading and no consecutive terminators), the day-04 reader
emits exactly one record per terminator plus one for a trailing run of
content holding a field; no emitted record has zero populated fields; and a
terminator or end of input reached while the accumulator is empty makes the
reader signal exhaustion rather than emit an empty record. -/
theorem claim_C4_amended : ∀ ts : List Day04.Fact, Day04.wfFrom false ts = true →
    ((Day04.passports (ts.length + 1) ts).length =
      Day04.numTerms ts + (if Day04.seenAfter false ts = true then 1 else 0)) ∧
    (∀ p : Day04.Passport, p ∈ Day04.passports (ts.length + 1) ts →
      p.is_empty = false) ∧
    (∀ (acc : Day04.Passport) (rest : List Day04.Fact), acc.is_empty = true →
      Day04.nextPassport acc (Day04.Fact.DocumentEnd :: rest) = none) ∧
    (∀ acc : Day04.Passport, acc.is_empty = true →
      Day04.nextPassport acc [] = none) := by
  intro ts hwf
  have hpe := Day04.passports_eq (ts.length + 1) ts (Nat.lt_succ_self _)
  refine ⟨?_, ?_, ?_, ?_⟩
  · rw [hpe]
    exact Day04.emitAll_length ts Day04.Passport.default false rfl hwf
  · intro p hp
    rw [hpe] at hp
    exact Day04.emitAll_nonempty ts _ p hp
  · intro acc rest he
    simp [Day04.nextPassport, he]
  · intro acc he
    simp [Day04.nextPassport, he]

/-- Claim C4, witness: a two-segment stream (one terminator, trailing
content) yields exactly two records. -/
theorem claim_C4_witness :
    ((Day04.passports
        (([Day04.Fact.BirthYear ("1937"), Day04.Fact.DocumentEnd,
           Day04.Fact.EyeColor ("gry")]).length + 1)
        ([Day04.Fact.BirthYear ("1937"), Day04.Fact.DocumentEnd,
          Day04.Fact.EyeColor ("gry")])).length =
      Day04.numTerms ([Day04.Fact.BirthYear ("1937"), Day04.Fact.DocumentEnd,
          Day04.Fact.EyeColor ("gry")]) +
        (if Day04.seenAfter false
            ([Day04.Fact.BirthYear ("1937"), Day04.Fact.DocumentEnd,
              Day04.Fact.EyeColor ("gry")]) = true
         then 1 else 0)) ∧
    (∀ p : Day04.Passport, p ∈ Day04.passports
        (([Day04.Fact.BirthYear ("1937"), Day04.Fact.DocumentEnd,
           Day04.Fact.EyeColor ("gry")]).length + 1)
        ([Day04.Fact.BirthYear ("1937"), Day04.Fact.DocumentEnd,
          Day04.Fact.EyeColor ("gry")]) → p.is_empty = false) ∧
    (∀ (acc : Day04.Passport) (rest : List Day04.Fact), acc.is_empty = true →
      Day04.nextPassport acc (Day04.Fact.DocumentEnd :: rest) = none) ∧
    (∀ acc : Day04.Passport, acc.is_empty = true →
      Day04.nextPassport acc [] = none) :=
  claim_C4_amended
    ([Day04.Fact.BirthYear ("1937"), Day04.Fact.DocumentEnd,
      Day04.Fact.EyeColor ("gry")]) (by decide)

/-- Claim C5: for every map built by the day-03 reader, a row index at or
below the map is out of bounds (`none`), lookups wrap modulo the width, and
on the 3-wide grid whose row 0 is open, tree, open the scenario equalities
hold, with every column out of bounds at row `height`. -/
theorem claim_C5 :
    (∀ (ts : List Day03.Tile) (m : Day03.Map), Day03.Map.parse ts = some m →
      ∀ x y : Nat,
        (m.height ≤ y → Day03.tile_at m x y = none) ∧
        Day03.tile_at m x y = Day03.tile_at m (x % m.width) y) ∧
    (Day03.Map.parse (Day03.lexTiles ((".#.\n#.#\n..#").toList)) = some Day03.mapEx ∧
      Day03.tile_at Day03.mapEx 3 0 = Day03.tile_at Day03.mapEx 0 0 ∧
      Day03.tile_at Day03.mapEx 11 0 = Day03.tile_at Day03.mapEx 2 0 ∧
      Day03.tile_at Day03.mapEx 0 0 = some Day03.Tile.Open ∧
      Day03.tile_at Day03.mapEx 1 0 = some Day03.Tile.Tree ∧
      Day03.tile_at Day03.mapEx 2 0 = some Day03.Tile.Open ∧
      (∀ x : Nat, Day03.tile_at Day03.mapEx x Day03.mapEx.height = none)) := by
  constructor
  · intro ts m _h x y
    exact ⟨Day03.tile_at_oob m x y, Day03.tile_at_wrap m x y⟩
  · refine ⟨by decide, by decide, by decide, by decide, by decide, by decide, ?_⟩
    intro x
    exact Day03.tile_at_oob _ x _ (Nat.le_refl _)

/-- Claim C5, witness: the general part applied to the parsed example grid
at column 5, row 1. -/
theorem claim_C5_witness :
    (Day03.mapEx.height ≤ 1 → Day03.tile_at Day03.mapEx 5 1 = none) ∧
    Day03.tile_at Day03.mapEx 5 1 = Day03.tile_at Day03.mapEx (5 % Day03.mapEx.width) 1 :=
  claim_C5.1 (Day03.lexTiles ((".#.\n#.#\n..#").toList)) Day03.mapEx (by decide) 5 1

/-- Claim C6: day-04 field accumulation is last-write-wins: storing a field
token rewrites the corresponding slot of the accumulator regardless of its
earlier contents (never an error), and the record emitted at a terminator
holds, for each field, the value of the last token of that field before the
terminator. -/
theorem claim_C6 :
    ((∀ (acc : Day04.Passport) (v : String) (ts : List Day04.Fact),
        Day04.nextPassport acc (Day04.Fact.BirthYear v :: ts) =
          Day04.nextPassport { acc with birth_year := some v } ts) ∧
     (∀ (acc : Day04.Passport) (v : String) (ts : List Day04.Fact),
        Day04.nextPassport acc (Day04.Fact.CountryId v :: ts) =
          Day04.nextPassport { acc with country_id := some v } ts) ∧
     (∀ (acc : Day04.Passport) (v : String) (ts : List Day04.Fact),
        Day04.nextPassport acc (Day04.Fact.EyeColor v :: ts) =
          Day04.nextPassport { acc with eye_color := some v } ts) ∧
     (∀ (acc : Day04.Passport) (v : String) (ts : List Day04.Fact),
        Day04.nextPassport acc (Day04.Fact.ExpirationYear v :: ts) =
          Day04.nextPassport { acc with expiration_year := some v } ts) ∧
     (∀ (acc : Day04.Passport) (v : String) (ts : List Day04.Fact),
        Day04.nextPassport acc (Day04.Fact.HairColor v :: ts) =
          Day04.nextPassport { acc with hair_color := some v } ts) ∧
     (∀ (acc : Day04.Passport) (v : String) (ts : List Day04.Fact),
        Day04.nextPassport acc (Day04.Fact.Height v :: ts) =
          Day04.nextPassport { acc with height := some v } ts) ∧
     (∀ (acc : Day04.Passport) (v : String) (ts : List Day04.Fact),
        Day04.nextPassport acc (Day04.Fact.IssueYear v :: ts) =
          Day04.nextPassport { acc with issue_year := some v } ts) ∧
     (∀ (acc : Day04.Passport) (v : String) (ts : List Day04.Fact),
        Day04.nextPassport acc (Day04.Fact.PassportId v :: ts) =
          Day04.nextPassport { acc with passport_id := some v } ts)) ∧
    (∀ (pre rest : List Day04.Fact), Day04.noTerm pre = true →
      (pre.foldl Day04.applyFact Day04.Passport.default).is_empty = false →
      Day04.nextPassport Day04.Passport.default (pre ++ Day04.Fact.DocumentEnd :: rest) =
        some (pre.foldl Day04.applyFact Day04.Passport.default, rest) ∧
      (pre.foldl Day04.applyFact Day04.Passport.default).birth_year =
        Day04.lastFact Day04.selBirth pre ∧
      (pre.foldl Day04.applyFact Day04.Passport.default).country_id =
        Day04.lastFact Day04.selCountry pre ∧
      (pre.foldl Day04.applyFact Day04.Passport.default).eye_color =
        Day04.lastFact Day04.selEye pre ∧
      (pre.foldl Day04.applyFact Day04.Passport.default).expiration_year =
        Day04.lastFact Day04.selExpiration pre ∧
      (pre.foldl Day04.applyFact Day04.Passport.default).hair_color =
        Day04.lastFact Day04.selHair pre ∧
      (pre.foldl Day04.applyFact Day04.Passport.default).height =
        Day04.lastFact Day04.selHeight pre ∧
      (pre.foldl Day04.applyFact Day04.Passport.default).issue_year =
        Day04.lastFact Day04.selIssue pre ∧
      (pre.foldl Day04.applyFact Day04.Passport.default).passport_id =
        Day04.lastFact Day04.selPassId pre) := by
  refine ⟨⟨fun _acc _v _ts => rfl, fun _acc _v _ts => rfl, fun _acc _v _ts => rfl,
    fun _acc _v _ts => rfl, fun _acc _v _ts => rfl, fun _acc _v _ts => rfl,
    fun _acc _v _ts => rfl, fun _acc _v _ts => rfl⟩, ?_⟩
  intro pre rest h1 h2
  refine ⟨?_, ?_, ?_, ?_, ?_, ?_, ?_, ?_, ?_⟩
  · rw [Day04.nextPassport_append pre Day04.Passport.default rest h1]
    simp [h2]
  · exact Day04.lastFact_default (fun p => p.birth_year) Day04.selBirth
      (by intro acc t; cases t <;> rfl) rfl pre
  · exact Day04.lastFact_default (fun p => p.country_id) Day04.selCountry
      (by intro acc t; cases t <;> rfl) rfl pre
  · exact Day04.lastFact_default (fun p => p.eye_color) Day04.selEye
      (by intro acc t; cases t <;> rfl) rfl pre
  · exact Day04.lastFact_default (fun p => p.expiration_year) Day04.selExpiration
      (by intro acc t; cases t <;> rfl) rfl pre
  · exact Day04.lastFact_default (fun p => p.hair_color) Day04.selHair
      (by intro acc t; cases t <;> rfl) rfl pre
  · exact Day04.lastFact_default (fun p => p.height) Day04.selHeight
      (by intro acc t; cases t <;> rfl) rfl pre
  · exact Day04.lastFact_default (fun p => p.issue_year) Day04.selIssue
      (by intro acc t; cases t <;> rfl) rfl pre
  · exact Day04.lastFact_default (fun p => p.passport_id) Day04.selPassId
      (by intro acc t; cases t <;> rfl) rfl pre

/-- Claim C6, witness: two birth-year tokens before the terminator; the
emitted record holds the later value. -/
theorem claim_C6_witness :
    Day04.nextPassport Day04.Passport.default
        ([Day04.Fact.BirthYear ("1920"), Day04.Fact.BirthYear ("1937")] ++
          Day04.Fact.DocumentEnd :: []) =
      some (([Day04.Fact.BirthYear ("1920"), Day04.Fact.BirthYear ("1937")]).foldl
          Day04.applyFact Day04.Passport.default, []) ∧
    (([Day04.Fact.BirthYear ("1920"), Day04.Fact.BirthYear ("1937")]).foldl
        Day04.applyFact Day04.Passport.default).birth_year =
      Day04.lastFact Day04.selBirth
        ([Day04.Fact.BirthYear ("1920"), Day04.Fact.BirthYear ("1937")]) ∧
    (([Day04.Fact.BirthYear ("1920"), Day04.Fact.BirthYear ("1937")]).foldl
        Day04.applyFact Day04.Passport.default).country_id =
      Day04.lastFact Day04.selCountry
        ([Day04.Fact.BirthYear ("1920"), Day04.Fact.BirthYear ("1937")]) ∧
    (([Day04.Fact.BirthYear ("1920"), Day04.Fact.BirthYear ("1937")]).foldl
        Day04.applyFact Day04.Passport.default).eye_color =
      Day04.lastFact Day04.selEye
        ([Day04.Fact.BirthYear ("1920"), Day04.Fact.BirthYear ("1937")]) ∧
    (([Day04.Fact.BirthYear ("1920"), Day04.Fact.BirthYear ("1937")]).foldl
        Day04.applyFact Day04.Passport.default).expiration_year =
      Day04.lastFact Day04.selExpiration
        ([Day04.Fact.BirthYear ("1920"), Day04.Fact.BirthYear ("1937")]) ∧
    (([Day04.Fact.BirthYear ("1920"), Day04.Fact.BirthYear ("1937")]).foldl
        Day04.applyFact Day04.Passport.default).hair_color =
      Day04.lastFact Day04.selHair
        ([Day04.Fact.BirthYear ("1920"), Day04.Fact.BirthYear ("1937")]) ∧
    (([Day04.Fact.BirthYear ("1920"), Day04.Fact.BirthYear ("1937")]).foldl
        Day04.applyFact Day04.Passport.default).height =
      Day04.lastFact Day04.selHeight
        ([Day04.Fact.BirthYear ("1920"), Day04.Fact.BirthYear ("1937")]) ∧
    (([Day04.Fact.BirthYear ("1920"), Day04.Fact.BirthYear ("1937")]).foldl
        Day04.applyFact Day04.Passport.default).issue_year =
      Day04.lastFact Day04.selIssue
        ([Day04.Fact.BirthYear ("1920"), Day04.Fact.BirthYear ("1937")]) ∧
    (([Day04.Fact.BirthYear ("1920"), Day04.Fact.BirthYear ("1937")]).foldl
        Day04.applyFact Day04.Passport.default).passport_id =
      Day04.lastFact Day04.selPassId
        ([Day04.Fact.BirthYear ("1920"), Day04.Fact.BirthYear ("1937")]) :=
  claim_C6.2 ([Day04.Fact.BirthYear ("1920"), Day04.Fact.BirthYear ("1937")]) []
    (by decide) (by decide)

/-- Claim C7: both tokenizers of the shared pattern are deterministic, pure
functions of the input text: any two runs of the day-02 or day-04 lexer
step relation over the same input produce the same token sequence. -/
theorem claim_C7 :
    (∀ (cs : List Char) (ts1 ts2 : List Day02.PRToken),
      LexRun Day02.prNext cs ts1 → LexRun Day02.prNext cs ts2 → ts1 = ts2) ∧
    (∀ (cs : List Char) (ts1 ts2 : List Day04.Fact),
      LexRun Day04.factNext cs ts1 → LexRun Day04.factNext cs ts2 → ts1 = ts2) :=
  ⟨fun _ _ ts2 h1 h2 => lexRun_det Day02.prNext h1 ts2 h2,
   fun _ _ ts2 h1 h2 => lexRun_det Day04.factNext h1 ts2 h2⟩

/-- Claim C7, witness: two concrete runs of each lexer over the same input
agree. -/
theorem claim_C7_witness :
    ([Day02.PRToken.Password (("a").toList)] = [Day02.PRToken.Password (("a").toList)]) ∧
    ([Day04.Fact.BirthYear ("1937")] = [Day04.Fact.BirthYear ("1937")]) :=
  ⟨claim_C7.1 (("a").toList) _ _
      (@LexRun.emit _ Day02.prNext _ _ [] _ (by decide) (LexRun.done (by decide)))
      (@LexRun.emit _ Day02.prNext _ _ [] _ (by decide) (LexRun.done (by decide))),
   claim_C7.2 (("byr:1937").toList) _ _
      (@LexRun.emit _ Day04.factNext _ _ [] _ (by decide) (LexRun.done (by decide)))
      (@LexRun.emit _ Day04.factNext _ _ [] _ (by decide) (LexRun.done (by decide)))⟩

/-- Claim C8: for every map the day-03 reader builds (so in particular of
positive width), `tile_at` is total: for every column and every row below
the height, the computed index `y * width + x % width` is within the tile
vector, so the array access never goes out of bounds. -/
theorem claim_C8 : ∀ (ts : List Day03.Tile) (m : Day03.Map),
    Day03.Map.parse ts = some m → ∀ x y : Nat, y < m.height →
    y * m.width + x % m.width < m.tiles.length ∧
    (Day03.tile_at m x y).isSome = true := by
  intro ts m h x y hy
  have hb := Day03.tile_at_in_bounds h x y hy
  refine ⟨hb, ?_⟩
  unfold Day03.tile_at
  rw [if_neg (by omega)]
  cases hg : m.tiles.get? (y * m.width + x % m.width) with
  | none =>
    rw [List.get?_eq_none] at hg
    omega
  | some t => rfl

/-- Claim C8, witness: the bound at the parsed example grid, column 4,
row 2. -/
theorem claim_C8_witness :
    2 * Day03.mapEx.width + 4 % Day03.mapEx.width < Day03.mapEx.tiles.length ∧
    (Day03.tile_at Day03.mapEx 4 2).isSome = true :=
  claim_C8 (Day03.lexTiles ((".#.\n#.#\n..#").toList)) Day03.mapEx (by decide) 4 2
    (by decide)

/-- Claim C9: the day-02 one-based to zero-based conversion is an unsigned
subtraction: on a stream whose `Number` tokens all carry at least 1 the
reader never hits the underflow, a well-shaped rule line yields spots equal
to the numbers minus one, and a `Number` token carrying 0 underflows
(a panic in a debug build) instead of producing an index. -/
theorem claim_C9 :
    (∀ ts : List Day02.PRToken, Day02.allNumbersPos ts = true →
        Day02.parse_rule ts ≠ none) ∧
    (∀ (n m : Nat) (c : Char) (p : List Char) (rest : List Day02.PRToken),
        1 ≤ n → 1 ≤ m →
        Day02.parse_rule (Day02.PRToken.Number n :: Day02.PRToken.Dash ::
            Day02.PRToken.Number m :: Day02.PRToken.TargetCharacter c ::
            Day02.PRToken.Password p :: rest) =
          some (Except.ok (⟨n - 1, m - 1, c, p⟩, rest))) ∧
    (∀ rest : List Day02.PRToken,
        Day02.parse_rule (Day02.PRToken.Number 0 :: rest) = none) :=
  ⟨Day02.parse_rule_no_underflow,
   fun n m c p rest hn hm => Day02.parse_rule_spots n m c p rest hn hm,
   fun rest => by simp [Day02.parse_rule]⟩

/-- Claim C9, witness: the rule line `1-3 a: abcde` parses with zero-based
spots 0 and 2. -/
theorem claim_C9_witness :
    Day02.parse_rule ([Day02.PRToken.Number 1, Day02.PRToken.Dash,
        Day02.PRToken.Number 3, Day02.PRToken.TargetCharacter ('a'),
        Day02.PRToken.Password (("abcde").toList)]) =
      some (Except.ok (⟨0, 2, ('a'), ("abcde").toList⟩, [])) :=
  claim_C9.2.1 1 3 ('a') (("abcde").toList) [] (by decide) (by decide)

/-- Claim C10: the day-01 triple search is sound: whenever `find_2020`
returns a triple, all three components are elements of the list and they
sum to 2020. -/
theorem claim_C10 : ∀ (l : List Int) (a b c : Int),
    Day01.find_2020 l = some (some (a, b, c)) →
    a ∈ l ∧ b ∈ l ∧ c ∈ l ∧ a + b + c = 2020 := by
  intro l a b c h
  exact Day01.outerLoop_sound l l a b c h

/-- Claim C10, witness: the search over `[500, 700, 820]` finds the triple
and the soundness conclusion holds for it. -/
theorem claim_C10_witness :
    (500 : Int) ∈ ([500, 700, 820] : List Int) ∧
    (700 : Int) ∈ ([500, 700, 820] : List Int) ∧
    (820 : Int) ∈ ([500, 700, 820] : List Int) ∧
    (500 : Int) + 700 + 820 = 2020 :=
  claim_C10 ([500, 700, 820]) 500 700 820 (by decide)
